import Mathlib

/-!
Verification of `commonjs/kanso/permissions.js`: document-validation helpers,
markup utilities, the initialization-markup registry and the two form
renderers (table and div variants).

JavaScript values are shallowly embedded: primitive values (on which the
validators' strict equality `===` is structural) are `JSPrim`; full document
values, including arrays and objects, are `JSVal`.  Fallible validators return
`Except String Unit`, where `.error msg` models `throw new Error(msg)`.
The module-global registry `exports._initialization_markup` is threaded
explicitly as a value of type `Registry`.
-/

/-- JavaScript primitive values.  Strict equality `===` on primitives is
structural, so `DecidableEq` models it.  (Numbers are modelled as integers;
no claim involves fractional values or `NaN`.) -/
inductive JSPrim where
  | null
  | undefined
  | bool (b : Bool)
  | num (n : Int)
  | str (s : String)
deriving DecidableEq

/-- JavaScript values as found in documents: primitives, arrays and objects
(an object is its ordered field list). -/
inductive JSVal where
  | null
  | undefined
  | bool (b : Bool)
  | num (n : Int)
  | str (s : String)
  | arr (elems : List JSVal)
  | obj (fields : List (String × JSVal))

/-- JavaScript truthiness of a value: `null`, `undefined`, `false`, `0` and
the empty string are falsy; arrays and objects are always truthy. -/
def truthy : JSVal → Bool
  | .null => false
  | .undefined => false
  | .bool b => b
  | .num n => n != 0
  | .str s => s != ""
  | .arr _ => true
  | .obj _ => true

/-- The spec's "empty-like" primitives: `null`, `undefined` and `""`. -/
def emptyLike (v : JSPrim) : Bool :=
  v = JSPrim.null || v = JSPrim.undefined || v = JSPrim.str ""

/-- The user context handed to a validator; it exposes at least a `name`
property (a string, or `undefined`/`null` for anonymous callers). -/
structure UserCtx where
  name : JSPrim

/-- `exports.matchUsername` (permissions.js lines 4-15): a factory returning a
validator that throws `Field does not match your username` when
`userCtx.name !== newVal`, unless both sides are empty-like. -/
def matchUsername : Unit → JSVal → JSVal → JSPrim → JSPrim → UserCtx → Except String Unit :=
  fun _ _newDoc _oldDoc newVal _oldVal userCtx =>
    let name := userCtx.name
    if name ≠ newVal then
      if (name ≠ JSPrim.null ∧ name ≠ JSPrim.undefined ∧ name ≠ JSPrim.str "") ∨
          (newVal ≠ JSPrim.null ∧ newVal ≠ JSPrim.undefined ∧ newVal ≠ JSPrim.str "") then
        .error "Field does not match your username"
      else
        .ok ()
    else
      .ok ()

/-- `exports.uneditable` (permissions.js lines 17-25): a factory returning a
validator that throws `Field cannot be edited once created` when `oldDoc` is
truthy and `newValue !== oldValue`. -/
def uneditable : Unit → JSVal → JSVal → JSPrim → JSPrim → UserCtx → Except String Unit :=
  fun _ _newDoc oldDoc newValue oldValue _userCtx =>
    if truthy oldDoc then
      if newValue ≠ oldValue then
        .error "Field cannot be edited once created"
      else
        .ok ()
    else
      .ok ()

/-- Property lookup on an object field list: the first binding of the key, or
`undefined` when the key is missing. -/
def jsLookup (fields : List (String × JSVal)) (k : String) : JSVal :=
  ((fields.find? (fun e => e.1 == k)).map (fun e => e.2)).getD JSVal.undefined

/-- Modelled from the spec: `utils.getPropertyPath` (the `utils` module is not
under src/; the spec describes it as "PropertyPathResolver (external utility):
resolves a dotted/array path against a document object").  Each path segment
selects a property of the current object; a missing property or a non-object
intermediate value resolves to `undefined`. -/
def getPropertyPath : JSVal → List String → JSVal
  | v, [] => v
  | .obj fields, k :: ks => getPropertyPath (jsLookup fields k) ks
  | _, _ :: _ => .undefined

/-- Strict equality `===` between a primitive and a document value.  A
primitive is never `===` to an array or object (those compare by reference
in JavaScript, and a primitive is not a reference). -/
def strictEqPrimVal : JSPrim → JSVal → Bool
  | .null, .null => true
  | .undefined, .undefined => true
  | .bool a, .bool b => a == b
  | .num a, .num b => a == b
  | .str a, .str b => a == b
  | _, _ => false

/-- Argument to `usernameMatchesField`: either a single path segment or an
ordered sequence of segments.  The source distinguishes the two with
`utils.isArray` (modelled from the spec: the `utils` module is not under
src/; a sum type replaces the dynamic array test). -/
inductive PathArg where
  | single (s : String)
  | multi (l : List String)

/-- The source's `if (!utils.isArray(path)) path = [path];` normalization. -/
def normalizePath : PathArg → List String
  | .single s => [s]
  | .multi l => l

/-- `exports.usernameMatchesField` (permissions.js lines 27-37): a factory
that normalizes its path argument to a segment list, then returns a validator
throwing `username does not match field: <dot-joined path>` when
`userCtx.name !== utils.getPropertyPath(newDoc, path)`. -/
def usernameMatchesField (path : PathArg) :
    JSVal → JSVal → JSPrim → JSPrim → UserCtx → Except String Unit :=
  let p := normalizePath path
  fun newDoc _oldDoc _newValue _oldValue userCtx =>
    let field := getPropertyPath newDoc p
    if ¬ strictEqPrimVal userCtx.name field then
      .error ("username does not match field: " ++ String.intercalate "." p)
    else
      .ok ()

/-- C4: the validator returned by `matchUsername()` returns normally when
`userCtx.name === newVal` and when both `userCtx.name` and `newVal` are
empty-like (`null`, `undefined` or `""`); in every other case it raises
`Field does not match your username`. -/
theorem c4_matchUsername_spec (newDoc oldDoc : JSVal) (newVal oldVal : JSPrim)
    (ctx : UserCtx) :
    matchUsername () newDoc oldDoc newVal oldVal ctx =
      if ctx.name = newVal ∨ (emptyLike ctx.name ∧ emptyLike newVal) then
        .ok ()
      else
        .error "Field does not match your username" := by
  unfold matchUsername emptyLike
  split_ifs <;> simp_all <;> tauto

/-- C5: the validator returned by `uneditable()` raises
`Field cannot be edited once created` exactly when `oldDoc` is truthy and
`newValue !== oldValue`; in particular it never raises when `oldDoc` is
falsy. -/
theorem c5_uneditable_spec (newDoc oldDoc : JSVal) (newValue oldValue : JSPrim)
    (ctx : UserCtx) :
    uneditable () newDoc oldDoc newValue oldValue ctx =
      if truthy oldDoc ∧ newValue ≠ oldValue then
        .error "Field cannot be edited once created"
      else
        .ok () := by
  unfold uneditable
  split_ifs <;> simp_all

/-- C6: `usernameMatchesField` accepts a single segment or a segment list;
the validator resolves the normalized path against `newDoc` via property-path
lookup and raises `username does not match field: <dot-joined path>` exactly
when `userCtx.name` is not strictly equal to the resolved value.  The closed
conjuncts instantiate the nested-path case `["a","b"]` from the spec. -/
theorem c6_usernameMatchesField_spec :
    (∀ (p : PathArg) (newDoc oldDoc : JSVal) (nv ov : JSPrim) (ctx : UserCtx),
      usernameMatchesField p newDoc oldDoc nv ov ctx =
        if strictEqPrimVal ctx.name (getPropertyPath newDoc (normalizePath p)) then
          .ok ()
        else
          .error ("username does not match field: " ++
            String.intercalate "." (normalizePath p)))
    ∧ normalizePath (.single "a") = ["a"]
    ∧ usernameMatchesField (.multi ["a", "b"])
        (.obj [("a", .obj [("b", .str "carol")])]) .null
        (.str "x") (.str "x") ⟨.str "carol"⟩ = .ok ()
    ∧ usernameMatchesField (.multi ["a", "b"])
        (.obj [("a", .obj [("b", .str "carol")])]) .null
        (.str "x") (.str "x") ⟨.str "mallory"⟩ =
        .error "username does not match field: a.b" := by
  refine ⟨fun p newDoc oldDoc nv ov ctx => ?_, rfl, rfl, rfl⟩
  unfold usernameMatchesField
  split_ifs <;> simp_all

/-!
Markup utilities (permissions.js lines 62-167).  A `FieldView` is the plain
data of a field descriptor (or of an embedded-document `FieldType`) consumed
by the helpers: optional label, description and hint, and the required flag.
Absent attributes are `none`; JavaScript truthiness additionally treats an
empty string as absent.
-/

/-- Plain-data view of a field descriptor: the attributes read by the markup
helpers. -/
structure FieldView where
  label : Option String
  description : Option String
  hint : Option String
  required : Bool

/-- An error object at render time: an optional `message` attribute and the
value's string form (`toString()`). -/
structure ErrorObj where
  message : Option String
  str : String
deriving DecidableEq

/-- `errors[i].message || errors[i].toString()`: the `message` attribute when
truthy, else the string form. -/
def errMessage (e : ErrorObj) : String :=
  match e.message with
  | some m => if m = "" then e.str else m
  | none => e.str

/-- `exports.errorHTML` (lines 62-75): an unordered list of error messages,
or the empty string when the error list is empty. -/
def errorHTML (errors : List ErrorObj) : String :=
  if errors = [] then
    ""
  else
    errors.foldl
      (fun h e => h ++ "<li class=\"error_msg\">" ++ errMessage e ++ "</li>")
      "<ul class=\"errors\">"
    ++ "</ul>"

/-- The capitalize-and-replace-underscores transform
`name.substr(0, 1).toUpperCase() + name.substr(1).replace(/_/g, ' ')`,
shared by `labelText` and the renderers' `beginGroup`.  Written over the
character list (the pattern is the single character underscore, so the
global replace is a character map). -/
def capitalizeName (name : String) : String :=
  ⟨(name.data.take 1).map Char.toUpper ++
    (name.data.drop 1).map (fun c => if c = '_' then ' ' else c)⟩

/-- `exports.labelText` (lines 89-94): the custom label when truthy, else the
capitalized name with underscores replaced by spaces. -/
def labelText (field : FieldView) (name : String) : String :=
  match field.label with
  | some l => if l = "" then capitalizeName name else l
  | none => capitalizeName name

/-- `exports.labelHTML` (lines 107-111): a label tag whose `for` attribute is
`id` when truthy, else `'id_' + name`.  The omitted third argument of the
source's call sites is `none`. -/
def labelHTML (field : FieldView) (name : String) (id : Option String) : String :=
  "<label for=\"" ++
    (match id with
      | some i => if i = "" then "id_" ++ name else i
      | none => "id_" ++ name) ++
  "\">" ++ labelText field name ++ "</label>"

/-- `exports.descriptionHTML` (lines 122-127). -/
def descriptionHTML (obj : FieldView) : String :=
  match obj.description with
  | some d => if d = "" then "" else "<div class=\"description\">" ++ d ++ "</div>"
  | none => ""

/-- `exports.hintHTML` (lines 138-143). -/
def hintHTML (obj : FieldView) : String :=
  match obj.hint with
  | some h => if h = "" then "" else "<div class=\"hint\">" ++ h ++ "</div>"
  | none => ""

/-- `exports.classes` (lines 158-167): `["field"]`, plus `"error"` when the
error list is non-empty, plus `"required"` when the field is required. -/
def classes (field : FieldView) (errors : List ErrorObj) : List String :=
  let r := ["field"]
  let r := if errors = [] then r else r ++ ["error"]
  if field.required then r ++ ["required"] else r

/-!
The initialization-markup registry (permissions.js lines 177-226).  The
module-global object `exports._initialization_markup` is embedded as an
ordered association list (keys are unique: assignment replaces in place,
registration appends fresh keys at the end, mirroring property creation
order on a JavaScript object).
-/

/-- A registered entry: a static markup string, or a zero-argument
markup-producing function. -/
inductive MarkupEntry where
  | str (s : String)
  | fn (f : Unit → String)

/-- The registry object, in property creation order. -/
abbrev Registry := List (String × MarkupEntry)

/-- The value stored under a name, or `none` when the property is absent. -/
def lookupEntry : Registry → String → Option MarkupEntry
  | [], _ => none
  | e :: rest, n => if e.1 = n then some e.2 else lookupEntry rest n

/-- Property assignment `obj[name] = value`: replaces the value in place when
the property exists, else appends the new property. -/
def setEntry : Registry → String → MarkupEntry → Registry
  | [], n, v => [(n, v)]
  | e :: rest, n, v => if e.1 = n then (e.1, v) :: rest else e :: setEntry rest n v

/-- Truthiness of the property read `exports._initialization_markup[name]`:
an absent property reads as `undefined` (falsy), a stored function is truthy,
a stored string is truthy unless empty. -/
def jsEntryFalsy : Option MarkupEntry → Bool
  | none => true
  | some (.str s) => s = ""
  | some (.fn _) => false

/-- `exports.registerInitializationMarkup` (lines 198-202): stores `value`
under `name` when the current property read is falsy, else does nothing. -/
def registerInitializationMarkup (reg : Registry) (name : String)
    (value : MarkupEntry) : Registry :=
  if jsEntryFalsy (lookupEntry reg name) then setEntry reg name value else reg

/-- `m instanceof Function ? m() : m + ''`: invoke a function entry, keep a
string entry (string coercion is the identity on strings). -/
def runMarkupEntry : MarkupEntry → String
  | .str s => s
  | .fn f => f ()

/-- Numeric value of an all-digit key. -/
def keyToNat (s : String) : Nat :=
  s.data.foldl (fun n c => n * 10 + (c.toNat - 48)) 0

/-- Whether a property name is an array index in the ECMAScript sense: a
canonical decimal string (no leading zero except `"0"` itself) whose numeric
value is below `2^32 - 1`.  `for...in` enumerates such keys first, in
ascending numeric order, before the remaining keys in creation order. -/
def isArrayIndexKey (s : String) : Bool :=
  s ≠ "" && s.data.all Char.isDigit &&
    (s = "0" || !(s.data.headD '0' = '0')) &&
    keyToNat s < 4294967295

/-- Insert an entry into a list of array-index entries, keeping ascending
numeric key order. -/
def insertIdxEntry (e : String × MarkupEntry) :
    List (String × MarkupEntry) → List (String × MarkupEntry)
  | [] => [e]
  | x :: xs =>
    if keyToNat e.1 < keyToNat x.1 then e :: x :: xs else x :: insertIdxEntry e xs

/-- Sort array-index entries by ascending numeric key. -/
def sortIdxEntries (l : List (String × MarkupEntry)) : List (String × MarkupEntry) :=
  l.foldr insertIdxEntry []

/-- The `for...in` enumeration order over the registry object: array-index
keys in ascending numeric order first, then the remaining keys in property
creation order. -/
def enumOrder (reg : Registry) : List (String × MarkupEntry) :=
  sortIdxEntries (reg.filter (fun e => isArrayIndexKey e.1)) ++
    reg.filter (fun e => !isArrayIndexKey e.1)

/-- `exports.generateInitializationMarkup` (lines 213-226): for every entry,
in `for...in` enumeration order, append its markup (invoking function
entries) prefixed by a newline.  The loop body only reads the registry; the
returned pair makes the unchanged registry state explicit. -/
def generateInitializationMarkup (reg : Registry) : String × Registry :=
  ((enumOrder reg).foldl (fun rv e => rv ++ ("\n" ++ runMarkupEntry e.2)) "", reg)

/-- After assignment, the assigned property reads back the assigned value. -/
theorem lookupEntry_setEntry_self (reg : Registry) (n : String) (v : MarkupEntry) :
    lookupEntry (setEntry reg n v) n = some v := by
  induction reg with
  | nil => simp [setEntry, lookupEntry]
  | cons e rest ih =>
    by_cases h : e.1 = n <;> simp [setEntry, lookupEntry, h, ih]

/-- A left fold appending mapped items is the seed followed by the joined
map. -/
theorem foldl_append_eq_join {α : Type} (f : α → String) (l : List α) :
    ∀ s : String,
      l.foldl (fun rv e => rv ++ f e) s = s ++ String.join (l.map f) := by
  induction l with
  | nil => intro s; simp [String.join, String.append_empty]
  | cons e t ih =>
    intro s
    rw [List.map_cons, List.foldl_cons, ih]
    apply String.ext
    simp [String.data_append]

/-- C10 (confirmed): when the `id` argument of `labelHTML(field, name, id)`
is omitted or falsy, the label's `for` attribute is `"id_" + name`, i.e. the
result is `'<label for="id_' + name + '">' + labelText(field, name) +
'</label>'`; a truthy `id` is used verbatim instead. -/
theorem c10_labelHTML_id (f : FieldView) (name : String) :
    labelHTML f name none =
      "<label for=\"id_" ++ name ++ "\">" ++ labelText f name ++ "</label>"
  ∧ labelHTML f name (some "") =
      "<label for=\"id_" ++ name ++ "\">" ++ labelText f name ++ "</label>"
  ∧ ∀ id : String, id ≠ "" →
      labelHTML f name (some id) =
        "<label for=\"" ++ id ++ "\">" ++ labelText f name ++ "</label>" := by
  refine ⟨?_, ?_, fun id h => ?_⟩
  · apply String.ext; simp [labelHTML, String.data_append]
  · apply String.ext; simp [labelHTML, String.data_append]
  · apply String.ext; simp [labelHTML, h, String.data_append]

/-- C10 witness: a truthy `id` is used verbatim. -/
theorem c10_witness :
    labelHTML ⟨none, none, none, false⟩ "first_name" (some "custom") =
      "<label for=\"custom\">" ++
        labelText ⟨none, none, none, false⟩ "first_name" ++ "</label>" :=
  (c10_labelHTML_id ⟨none, none, none, false⟩ "first_name").2.2 "custom" (by decide)

/-- C1 counterexample: with `v1 = ""` (a falsy markup string), the second
registration under the same name is NOT ignored: the stored value becomes
`v2`, because the source tests truthiness of the stored value
(`if (!exports._initialization_markup[name])`), not presence of the name,
and the subsequent `generateInitializationMarkup()` output reflects `v2`. -/
theorem c1_counterexample :
    registerInitializationMarkup
        (registerInitializationMarkup [] "k" (MarkupEntry.str ""))
        "k" (MarkupEntry.str "B")
      = [("k", MarkupEntry.str "B")]
  ∧ MarkupEntry.str "B" ≠ MarkupEntry.str ""
  ∧ (generateInitializationMarkup
        (registerInitializationMarkup
          (registerInitializationMarkup [] "k" (MarkupEntry.str ""))
          "k" (MarkupEntry.str "B"))).1 = "\nB" := by
  refine ⟨rfl, ?_, rfl⟩
  intro h
  injection h with h2
  simp at h2

/-- C1 (amended): provided `name` is not yet present in the registry and the
first value `v1` is truthy (a function, or a non-empty string), registering
`(name, v1)` and then `(name, v2)` leaves `v1` stored under `name`: the
second registration is a no-op, and `generateInitializationMarkup()` output
after it is identical to the output after the first registration alone. -/
theorem c1_first_write_wins_truthy (reg : Registry) (name : String)
    (v1 v2 : MarkupEntry) (hfresh : lookupEntry reg name = none)
    (htruthy : jsEntryFalsy (some v1) = false) :
    lookupEntry (registerInitializationMarkup reg name v1) name = some v1
  ∧ registerInitializationMarkup (registerInitializationMarkup reg name v1)
      name v2 = registerInitializationMarkup reg name v1
  ∧ (generateInitializationMarkup
        (registerInitializationMarkup (registerInitializationMarkup reg name v1)
          name v2)).1
      = (generateInitializationMarkup (registerInitializationMarkup reg name v1)).1 := by
  set X := registerInitializationMarkup reg name v1 with hX
  have h2 : lookupEntry X name = some v1 := by
    rw [hX]
    have h1 : registerInitializationMarkup reg name v1 = setEntry reg name v1 := by
      unfold registerInitializationMarkup
      rw [hfresh]
      simp [jsEntryFalsy]
    rw [h1]
    exact lookupEntry_setEntry_self reg name v1
  have h3 : registerInitializationMarkup X name v2 = X := by
    unfold registerInitializationMarkup
    rw [h2, htruthy]
    simp
  exact ⟨h2, h3, by rw [h3]⟩

/-- C1 witness: with a fresh name and a truthy first value, the second
registration is ignored and the generated markup is unchanged. -/
theorem c1_witness :
    lookupEntry (registerInitializationMarkup [] "k" (MarkupEntry.str "A")) "k"
      = some (MarkupEntry.str "A")
  ∧ registerInitializationMarkup
        (registerInitializationMarkup [] "k" (MarkupEntry.str "A"))
        "k" (MarkupEntry.str "B")
      = registerInitializationMarkup [] "k" (MarkupEntry.str "A")
  ∧ (generateInitializationMarkup
        (registerInitializationMarkup
          (registerInitializationMarkup [] "k" (MarkupEntry.str "A"))
          "k" (MarkupEntry.str "B"))).1
      = (generateInitializationMarkup
          (registerInitializationMarkup [] "k" (MarkupEntry.str "A"))).1 :=
  c1_first_write_wins_truthy [] "k" (MarkupEntry.str "A") (MarkupEntry.str "B")
    rfl rfl

/-- The claim's description of `generateInitializationMarkup()` output, taken
from the spec's words: the concatenation, in registration order, of every
entry's markup, each prefixed by a newline.  Compared below with the source's
`for...in` enumeration order. -/
def specRegistrationOrderConcat (reg : Registry) : String :=
  String.join (reg.map (fun e => "\n" ++ runMarkupEntry e.2))

/-- C8 counterexample: with names that are array-index strings, `for...in`
enumerates them in ascending numeric order, not registration order, so the
output is not the registration-order concatenation: after registering
`("1", "b")` and then `("0", "a")`, the generated markup is `"\na\nb"`. -/
theorem c8_counterexample :
    (generateInitializationMarkup
        (registerInitializationMarkup
          (registerInitializationMarkup [] "1" (MarkupEntry.str "b"))
          "0" (MarkupEntry.str "a"))).1 = "\na\nb"
  ∧ specRegistrationOrderConcat
        (registerInitializationMarkup
          (registerInitializationMarkup [] "1" (MarkupEntry.str "b"))
          "0" (MarkupEntry.str "a")) = "\nb\na"
  ∧ (generateInitializationMarkup
        (registerInitializationMarkup
          (registerInitializationMarkup [] "1" (MarkupEntry.str "b"))
          "0" (MarkupEntry.str "a"))).1
      ≠ specRegistrationOrderConcat
          (registerInitializationMarkup
            (registerInitializationMarkup [] "1" (MarkupEntry.str "b"))
            "0" (MarkupEntry.str "a")) := by
  refine ⟨rfl, rfl, ?_⟩
  decide

/-- C8 (amended): `generateInitializationMarkup()` leaves the registry
unmodified, two consecutive calls with no intervening registration produce
identical output, and the output is the concatenation of every entry's markup
(the entry invoked if callable, otherwise its string form), each prefixed by
a newline, in `for...in` enumeration order — which is registration order
whenever no registered name is an array-index string. -/
theorem c8_generate_properties (reg : Registry) :
    (generateInitializationMarkup reg).2 = reg
  ∧ (generateInitializationMarkup ((generateInitializationMarkup reg).2)).1
      = (generateInitializationMarkup reg).1
  ∧ (generateInitializationMarkup reg).1
      = String.join ((enumOrder reg).map (fun e => "\n" ++ runMarkupEntry e.2))
  ∧ ((∀ e ∈ reg, isArrayIndexKey e.1 = false) →
      (generateInitializationMarkup reg).1 = specRegistrationOrderConcat reg) := by
  have hjoin : (generateInitializationMarkup reg).1
      = String.join ((enumOrder reg).map (fun e => "\n" ++ runMarkupEntry e.2)) := by
    show (enumOrder reg).foldl (fun rv e => rv ++ ("\n" ++ runMarkupEntry e.2)) ""
        = String.join ((enumOrder reg).map (fun e => "\n" ++ runMarkupEntry e.2))
    rw [foldl_append_eq_join (fun e => "\n" ++ runMarkupEntry e.2) (enumOrder reg) ""]
    exact String.empty_append _
  refine ⟨rfl, rfl, hjoin, fun h => ?_⟩
  have h1 : reg.filter (fun e => isArrayIndexKey e.1) = [] := by
    rw [List.filter_eq_nil_iff]
    intro a ha
    simp [h a ha]
  have h2 : reg.filter (fun e => !isArrayIndexKey e.1) = reg := by
    rw [List.filter_eq_self]
    intro a ha
    simp [h a ha]
  rw [hjoin]
  unfold enumOrder specRegistrationOrderConcat
  rw [h1, h2]
  simp [sortIdxEntries]

/-- C8 witness: for a registry whose only name is not an array-index string,
the generated output is exactly the registration-order concatenation. -/
theorem c8_witness :
    (generateInitializationMarkup [("k", MarkupEntry.str "A")]).1
      = specRegistrationOrderConcat [("k", MarkupEntry.str "A")] :=
  (c8_generate_properties [("k", MarkupEntry.str "A")]).2.2.2 (by decide)

/-!
The renderers (permissions.js lines 240-423 for `exports.table`, 431-622 for
`exports.div`).  A widget is an external capability object; its `toHTML`
receives the dot-joined name, the value, the raw value and the field.  In
JavaScript the field object itself (which contains the widget) is passed;
the circular reference cannot be written as a Lean structure, so `toHTML`
receives the field's plain-data view instead.  The mutable instance field
`this.depth` is threaded explicitly; methods touching the module-global
registry take and return a `Registry`.
-/

/-- The widget contract: a `type` tag (e.g. `"hidden"`) and
`toHTML(name, value, rawValue, field)`. -/
structure Widget where
  type : String
  toHTML : String → JSVal → JSVal → FieldView → String

/-- The embedded-document type metadata carried by embed/embedList fields:
`field.type`, exposing `name` and label/description attributes. -/
structure FieldType where
  name : String
  label : Option String
  description : Option String

/-- A field descriptor: optional label, description and hint, the required
flag, the widget, and (for embed/embedList fields) the embedded-document
type metadata. -/
structure FormField where
  label : Option String
  description : Option String
  hint : Option String
  required : Bool
  widget : Widget
  type : FieldType

/-- The plain-data view of a field handed to the markup helpers and to
`widget.toHTML`. -/
def FormField.toView (f : FormField) : FieldView :=
  ⟨f.label, f.description, f.hint, f.required⟩

/-- The plain-data view of `field.type` handed to the markup helpers by
`embed`/`embedList` (a `FieldType` has no `hint` and no `required`
property; both read as `undefined`, i.e. falsy). -/
def FieldType.toView (t : FieldType) : FieldView :=
  ⟨t.label, t.description, none, false⟩

/-- `path.slice(depth)` with JavaScript semantics: a negative start counts
from the end, clamped at 0. -/
def jsSlice (l : List String) (d : Int) : List String :=
  if d < 0 then l.drop ((l.length + d).toNat) else l.drop d.toNat

/-- The element sequence iterated by underscore's `_.each(value, ...)` in
`embedList`: an array iterates its elements in order.  `embedList` values
are arrays by contract (zero or more embedded sub-documents); non-array
iteration (underscore's object/array-like branches) is not modelled. -/
def jsElems : JSVal → List JSVal
  | .arr l => l
  | _ => []

/-- Modelled from the spec: `widgets.scriptTagForInit` (the `widgets` module
is not under src/; the spec describes the registered value as "a function
producing a script-tag invocation bootstrapping embed-widget binding
logic").  The exact markup text is irrelevant to the claims. -/
def scriptTagForInit (path method : String) : String :=
  "<script type=\"text/javascript\">" ++ path ++ "." ++ method ++ "();</script>"

namespace table

/-- `table.start` (lines 248-251): resets `depth` to 0 and returns the
opening table tag. -/
def start : Int × String :=
  (0, "<table class=\"render-table\">")

/-- `table.beginGroup` (lines 263-278): increments `depth` and returns the
group heading and body opening, tagged with a `level-<depth>` CSS class.
(`_.last` of an empty path is `undefined` in JavaScript and the subsequent
`substr` would throw; callers pass non-empty paths, modelled with `""`.) -/
def beginGroup (depth : Int) (path : List String) : Int × String :=
  let depth := depth + 1
  let name := path.getLastD ""
  let css_class := "level-" ++ toString depth
  (depth,
    "<tbody class=\"head " ++ css_class ++ "\">" ++
    "<tr>" ++
      "<th colspan=\"3\">" ++ capitalizeName name ++ "</th>" ++
    "</tr>" ++
    "</tbody>" ++
    "<tbody class=\"group " ++ css_class ++ "\">")

/-- `table.endGroup` (lines 290-293): decrements `depth` and returns the
closing tag. -/
def endGroup (depth : Int) (_path : List String) : Int × String :=
  (depth - 1, "</tbody>")

/-- `table.field` (lines 305-324): hidden widgets return only their own
markup; other fields return a decorated table row. -/
def field (depth : Int) (f : FormField) (path : List String) (value raw : JSVal)
    (errors : List ErrorObj) : String :=
  let name := String.intercalate "." path
  let caption := String.intercalate " " (jsSlice path depth)
  if f.widget.type = "hidden" then
    f.widget.toHTML name value raw f.toView
  else
    "<tr class=\"" ++ String.intercalate " " (classes f.toView errors) ++ "\">" ++
      "<th>" ++
        labelHTML f.toView caption none ++
        descriptionHTML f.toView ++
      "</th>" ++
      "<td>" ++
        f.widget.toHTML name value raw f.toView ++
        hintHTML f.toView ++
      "</td>" ++
      "<td class=\"errors\">" ++
        errorHTML errors ++
      "</td>" ++
    "</tr>"

/-- `table.initializationMarkupForEmbed` (lines 419-421). -/
def initializationMarkupForEmbed : Unit → String :=
  fun _ => scriptTagForInit "kanso/embed" "bind"

/-- `table.embed` (lines 337-358): registers the shared initialization-markup
entry under `"built-in embed/embedList"` and returns the embedded row.  (The
source's markup is transcribed as-is, including its unclosed field `<td>`.) -/
def embed (depth : Int) (reg : Registry) (f : FormField) (path : List String)
    (value raw : JSVal) (errors : List ErrorObj) : Registry × String :=
  let name := String.intercalate "." path
  let caption := String.intercalate " " (jsSlice path depth)
  let reg := registerInitializationMarkup reg "built-in embed/embedList"
    (MarkupEntry.fn initializationMarkupForEmbed)
  (reg,
    "<tr class=\"embedded\">" ++
      "<th>" ++
        labelHTML f.type.toView caption none ++
        descriptionHTML f.type.toView ++
      "</th>" ++
      "<td class=\"field\" rel=\"" ++ f.type.name ++ "\">" ++
      "<table rel=\"" ++ name ++ "\"><tbody><tr><td>" ++
        f.widget.toHTML name value raw f.toView ++
      "</td>" ++
      "<td class=\"actions\"></td>" ++
      "</tr></tbody></table>" ++
      "<td class=\"errors\">" ++
        errorHTML errors ++
      "</td>" ++
    "</tr>")

/-- `table.embedList` (lines 370-397): registers the shared
initialization-markup entry, then renders one row per element of the value
sequence (each row's widget markup applied to that element), inside one
outer row with a single shared error list. -/
def embedList (depth : Int) (reg : Registry) (f : FormField) (path : List String)
    (value raw : JSVal) (errors : List ErrorObj) : Registry × String :=
  let name := String.intercalate "." path
  let caption := String.intercalate " " (jsSlice path depth)
  let reg := registerInitializationMarkup reg "built-in embed/embedList"
    (MarkupEntry.fn initializationMarkupForEmbed)
  let html :=
    "<tr class=\"embeddedlist\">" ++
      "<th>" ++
        labelHTML f.type.toView caption none ++
        descriptionHTML f.type.toView ++
      "</th>" ++
      "<td class=\"field\" rel=\"" ++ f.type.name ++ "\">" ++
      "<table rel=\"" ++ name ++ "\"><tbody>"
  let html := (jsElems value).foldl
    (fun h v => h ++
      ("<tr><td>" ++
        f.widget.toHTML name v raw f.toView ++
      "</td><td class=\"actions\">" ++
      "</td></tr>"))
    html
  let html := html ++
    "</tbody></table></td>" ++
      "<td class=\"errors\">" ++
        errorHTML errors ++
      "</td>" ++
    "</tr>"
  (reg, html)

/-- `table.end` (lines 409-411). -/
def «end» : String :=
  "</table>"

end table

namespace div

/-- `div.start` (lines 438-441). -/
def start : Int × String :=
  (0, "<div class=\"render-div\">")

/-- `div.beginGroup` (lines 453-464). -/
def beginGroup (depth : Int) (path : List String) : Int × String :=
  let depth := depth + 1
  let name := path.getLastD ""
  let css_class := "level-" ++ toString depth
  (depth,
    "<div class=\"group " ++ css_class ++ "\">" ++
    "<div class=\"heading\">" ++ capitalizeName name ++ "</div>")

/-- `div.endGroup` (lines 476-479). -/
def endGroup (depth : Int) (_path : List String) : Int × String :=
  (depth - 1, "</div>")

/-- `div.field` (lines 491-521): hidden widgets return only their own markup;
other fields return a decorated nested-div unit. -/
def field (depth : Int) (f : FormField) (path : List String) (value raw : JSVal)
    (errors : List ErrorObj) : String :=
  let name := String.intercalate "." path
  let caption := String.intercalate " " (jsSlice path depth)
  if f.widget.type = "hidden" then
    f.widget.toHTML name value raw f.toView
  else
    "<div class=\"" ++ String.intercalate " " (classes f.toView errors) ++ "\">" ++
    "<div class=\"scalar\">" ++
      "<div class=\"label\">" ++
        "<label for=\"" ++ name ++ "\">" ++
          labelHTML f.toView caption none ++
          descriptionHTML f.toView ++
        "</label>" ++
      "</div>" ++
      "<div class=\"content\">" ++
        "<div class=\"inner\">" ++
          f.widget.toHTML name value raw f.toView ++
        "</div>" ++
        "<div class=\"hint\">" ++
          hintHTML f.toView ++
        "</div>" ++
        "<div class=\"errors\">" ++
          errorHTML errors ++
        "</div>" ++
      "</div>" ++
    "</div>" ++
    "</div>"

/-- `div.embed` (lines 534-559): returns the embedded unit.  Unlike
`table.embed`, it performs NO initialization-markup registration; the
registry is returned unchanged. -/
def embed (depth : Int) (reg : Registry) (f : FormField) (path : List String)
    (value raw : JSVal) (errors : List ErrorObj) : Registry × String :=
  let name := String.intercalate "." path
  let caption := String.intercalate " " (jsSlice path depth)
  (reg,
    "<div class=\"" ++ String.intercalate " " (classes f.type.toView errors) ++ "\">" ++
    "<div class=\"embedded\">" ++
      "<div class=\"label\">" ++
        "<label for=\"" ++ name ++ "\">" ++
          labelHTML f.type.toView caption none ++
          descriptionHTML f.type.toView ++
        "</label>" ++
      "</div>" ++
      "<div class=\"content\" rel=\"" ++ f.type.name ++ "\">" ++
        "<div class=\"inner\" rel=\"" ++ name ++ "\">" ++
          f.widget.toHTML name value raw f.toView ++
        "</div>" ++
        "<div class=\"actions\">" ++
        "</div>" ++
        "<div class=\"errors\">" ++
          errorHTML errors ++
        "</div>" ++
      "</div>" ++
    "</div>")

/-- `div.embedList` (lines 571-607): returns the embedded-list unit.  Unlike
`table.embedList`, it performs NO initialization-markup registration, and its
per-element loop passes the WHOLE `value` (not the element `v`, which is
unused in the source) to `field.widget.toHTML`. -/
def embedList (depth : Int) (reg : Registry) (f : FormField) (path : List String)
    (value raw : JSVal) (errors : List ErrorObj) : Registry × String :=
  let name := String.intercalate "." path
  let caption := String.intercalate " " (jsSlice path depth)
  let html :=
    "<div class=\"" ++ String.intercalate " " (classes f.type.toView errors) ++ "\">" ++
    "<div class=\"embeddedlist\">" ++
      "<div class=\"label\">" ++
        "<label for=\"" ++ name ++ "\">" ++
          labelHTML f.type.toView caption none ++
          descriptionHTML f.type.toView ++
        "</label>" ++
      "</div>" ++
      "<div class=\"content\" rel=\"" ++ f.type.name ++ "\">"
  let html := (jsElems value).foldl
    (fun h _v => h ++
      ("<div class=\"item\" rel=\"" ++ name ++ "\">" ++
        "<div class=\"inner\">" ++
          f.widget.toHTML name value raw f.toView ++
        "</div>" ++
        "<div class=\"actions\">" ++
        "</div>" ++
      "</div>"))
    html
  let html := html ++
      "<div class=\"errors\">" ++
        errorHTML errors ++
      "</div>" ++
      "</div>" ++
    "</div>" ++
    "</div>"
  (reg, html)

/-- `div.end` (lines 619-621). -/
def «end» : String :=
  "</div>"

end div

/-- C9 (confirmed): for both renderer variants, when the field's widget is
tagged `"hidden"`, `field(field, path, value, raw, errors)` returns exactly
`field.widget.toHTML(path.join('.'), value, raw, field)` with no wrapping
markup. -/
theorem c9_hidden_field_markup (d : Int) (f : FormField) (path : List String)
    (value raw : JSVal) (errors : List ErrorObj)
    (h : f.widget.type = "hidden") :
    table.field d f path value raw errors
      = f.widget.toHTML (String.intercalate "." path) value raw f.toView
  ∧ div.field d f path value raw errors
      = f.widget.toHTML (String.intercalate "." path) value raw f.toView := by
  unfold table.field div.field
  simp [h]

/-- A concrete hidden widget and field for the C9 witness. -/
def hiddenWidget : Widget :=
  ⟨"hidden", fun name _ _ _ => "<input type=\"hidden\" name=\"" ++ name ++ "\"/>"⟩

/-- A field using `hiddenWidget`. -/
def hiddenField : FormField :=
  ⟨none, none, none, false, hiddenWidget, ⟨"t", none, none⟩⟩

/-- C9 witness: a hidden field renders as its widget markup alone in both
variants. -/
theorem c9_witness :
    table.field 0 hiddenField ["a", "b"] (.str "v") (.str "v") []
      = hiddenField.widget.toHTML (String.intercalate "." ["a", "b"])
          (.str "v") (.str "v") hiddenField.toView
  ∧ div.field 0 hiddenField ["a", "b"] (.str "v") (.str "v") []
      = hiddenField.widget.toHTML (String.intercalate "." ["a", "b"])
          (.str "v") (.str "v") hiddenField.toView :=
  c9_hidden_field_markup 0 hiddenField ["a", "b"] (.str "v") (.str "v") [] rfl

/-- A widget whose markup names the shape of the value it receives, used to
exhibit which value each `embedList` variant hands to `widget.toHTML`:
`STR:<s>` for a string element, `LIST<n>` for an n-element array. -/
def echoWidget : Widget :=
  ⟨"text", fun _ v _ _ =>
    match v with
    | .str s => "STR:" ++ s
    | .arr l => "LIST" ++ toString l.length
    | _ => "OTHER"⟩

/-- An embed-list field using `echoWidget`. -/
def echoField : FormField :=
  ⟨none, none, none, false, echoWidget, ⟨"item", none, none⟩⟩

set_option maxRecDepth 65536 in
/-- C3 (code bug in the div variant): on the value `["a","b"]`, the table
variant renders one unit per element, the i-th containing
`field.widget.toHTML` applied to the i-th element (`STR:a`, then `STR:b`);
the div variant renders one unit per element but passes the WHOLE value list
to `field.widget.toHTML` each time (`LIST2` twice — the per-element binder
`v` of its loop is unused in the source), contradicting the per-element
rendering that the source's own doc comment (identical to the table
variant's) and the spec describe. -/
theorem c3_div_embedList_ignores_elements :
    (table.embedList 0 [] echoField ["xs"] (.arr [.str "a", .str "b"])
        (.str "") []).2
      = "<tr class=\"embeddedlist\"><th><label for=\"id_xs\">Xs</label></th>" ++
        "<td class=\"field\" rel=\"item\"><table rel=\"xs\"><tbody>" ++
        "<tr><td>STR:a</td><td class=\"actions\"></td></tr>" ++
        "<tr><td>STR:b</td><td class=\"actions\"></td></tr>" ++
        "</tbody></table></td><td class=\"errors\"></td></tr>"
  ∧ (div.embedList 0 [] echoField ["xs"] (.arr [.str "a", .str "b"])
        (.str "") []).2
      = "<div class=\"field\"><div class=\"embeddedlist\"><div class=\"label\">" ++
        "<label for=\"xs\"><label for=\"id_xs\">Xs</label></label></div>" ++
        "<div class=\"content\" rel=\"item\">" ++
        "<div class=\"item\" rel=\"xs\"><div class=\"inner\">LIST2</div><div class=\"actions\"></div></div>" ++
        "<div class=\"item\" rel=\"xs\"><div class=\"inner\">LIST2</div><div class=\"actions\"></div></div>" ++
        "<div class=\"errors\"></div></div></div></div>" := by
  constructor <;> exact rfl

/-- The arguments of one `embed`/`embedList` visit. -/
structure EmbedArgs where
  depth : Int
  field : FormField
  path : List String
  value : JSVal
  raw : JSVal
  errors : List ErrorObj

/-- One visit of an embed or embedList field in a render pass. -/
inductive EmbedCall where
  | embed (a : EmbedArgs)
  | embedList (a : EmbedArgs)

/-- Registry effect of one table-renderer embed/embedList visit. -/
def tableEmbedStep (reg : Registry) : EmbedCall → Registry
  | .embed a => (table.embed a.depth reg a.field a.path a.value a.raw a.errors).1
  | .embedList a =>
    (table.embedList a.depth reg a.field a.path a.value a.raw a.errors).1

/-- Registry after a sequence of table-renderer embed/embedList visits. -/
def runTableEmbeds (reg : Registry) (calls : List EmbedCall) : Registry :=
  calls.foldl tableEmbedStep reg

/-- Number of registry entries stored under a name. -/
def countName (reg : Registry) (name : String) : Nat :=
  (reg.filter (fun e => e.1 = name)).length

/-- Both table embed visits register the same fixed entry. -/
theorem tableEmbedStep_eq (reg : Registry) (c : EmbedCall) :
    tableEmbedStep reg c =
      registerInitializationMarkup reg "built-in embed/embedList"
        (MarkupEntry.fn table.initializationMarkupForEmbed) := by
  cases c <;> rfl

/-- Registering under a name that already stores a function is a no-op. -/
theorem register_noop_of_fn (reg : Registry) (name : String) (f : Unit → String)
    (v : MarkupEntry)
    (h : lookupEntry reg name = some (MarkupEntry.fn f)) :
    registerInitializationMarkup reg name v = reg := by
  unfold registerInitializationMarkup
  rw [h]
  simp [jsEntryFalsy]

/-- Once the fixed embed entry is stored, further table embed visits leave
the registry unchanged. -/
theorem runTableEmbeds_preserve (calls : List EmbedCall) (reg : Registry)
    (h : lookupEntry reg "built-in embed/embedList"
        = some (MarkupEntry.fn table.initializationMarkupForEmbed)) :
    runTableEmbeds reg calls = reg := by
  induction calls with
  | nil => rfl
  | cons c t ih =>
    show runTableEmbeds (tableEmbedStep reg c) t = reg
    rw [tableEmbedStep_eq, register_noop_of_fn reg _ _ _ h, ih]

/-- C2 counterexample: a `div.embed` visit performs no registration — from
the empty registry, the registry is still empty afterwards and holds no
entry under `"built-in embed/embedList"`, so the claim fails for the div
variant. -/
theorem c2_counterexample :
    (div.embed 0 [] echoField ["p"] (.obj []) (.str "") []).1 = []
  ∧ lookupEntry (div.embed 0 [] echoField ["p"] (.obj []) (.str "") []).1
      "built-in embed/embedList" = none :=
  ⟨rfl, rfl⟩

/-- C2 (amended): for the TABLE variant, every non-empty sequence of
`embed`/`embedList` visits starting from the empty registry leaves exactly
one entry under the fixed name `"built-in embed/embedList"`, however many
visits occur; the DIV variant's `embed`/`embedList` register nothing (the
registry is returned unchanged). -/
theorem c2_table_single_registration (calls : List EmbedCall)
    (h : calls ≠ []) :
    countName (runTableEmbeds [] calls) "built-in embed/embedList" = 1
  ∧ ∀ (reg : Registry) (a : EmbedArgs),
      (div.embed a.depth reg a.field a.path a.value a.raw a.errors).1 = reg
    ∧ (div.embedList a.depth reg a.field a.path a.value a.raw a.errors).1 = reg := by
  constructor
  · cases calls with
    | nil => exact absurd rfl h
    | cons c t =>
      have hstep : tableEmbedStep [] c
          = [("built-in embed/embedList",
              MarkupEntry.fn table.initializationMarkupForEmbed)] := by
        rw [tableEmbedStep_eq]
        rfl
      show countName (runTableEmbeds (tableEmbedStep [] c) t) _ = 1
      rw [hstep,
        runTableEmbeds_preserve t
          [("built-in embed/embedList",
            MarkupEntry.fn table.initializationMarkupForEmbed)] rfl]
      rfl
  · intro reg a
    exact ⟨rfl, rfl⟩

/-- Sample visit arguments for the C2 witness. -/
def c2Args : EmbedArgs :=
  ⟨0, echoField, ["p"], .arr [], .str "", []⟩

/-- C2 witness: after one `embed` and one `embedList` table visit from the
empty registry, exactly one entry is stored under the fixed name. -/
theorem c2_witness :
    countName (runTableEmbeds [] [.embed c2Args, .embedList c2Args])
      "built-in embed/embedList" = 1 :=
  (c2_table_single_registration [.embed c2Args, .embedList c2Args]
    (List.cons_ne_nil _ _)).1

/-- A group-traversal event: one `beginGroup` or `endGroup` call. -/
inductive GEvent where
  | beginGroup (path : List String)
  | endGroup (path : List String)

/-- Depth effect of one event on the table renderer. -/
def tableDepthStep (d : Int) : GEvent → Int
  | .beginGroup p => (table.beginGroup d p).1
  | .endGroup p => (table.endGroup d p).1

/-- Depth effect of one event on the div renderer. -/
def divDepthStep (d : Int) : GEvent → Int
  | .beginGroup p => (div.beginGroup d p).1
  | .endGroup p => (div.endGroup d p).1

/-- Depth after running a sequence of group events from depth `d`. -/
def runDepth (step : Int → GEvent → Int) (d : Int) (evs : List GEvent) : Int :=
  evs.foldl step d

/-- +1 for `beginGroup`, -1 for `endGroup`. -/
def gdelta : GEvent → Int
  | .beginGroup _ => 1
  | .endGroup _ => -1

/-- Net depth change of an event sequence. -/
def deltaSum (evs : List GEvent) : Int :=
  (evs.map gdelta).sum

/-- Properly balanced and nested `beginGroup`/`endGroup` sequences: each
`beginGroup` is closed by a matching `endGroup` with the same path (the
traversal contract guaranteed by the external form driver). -/
inductive BalancedGroups : List GEvent → Prop where
  | nil : BalancedGroups []
  | append {l r : List GEvent} : BalancedGroups l → BalancedGroups r → BalancedGroups (l ++ r)
  | wrap {m : List GEvent} (p : List String) :
      BalancedGroups m → BalancedGroups (GEvent.beginGroup p :: m ++ [GEvent.endGroup p])

theorem deltaSum_append (l r : List GEvent) :
    deltaSum (l ++ r) = deltaSum l + deltaSum r := by
  simp [deltaSum]

theorem deltaSum_cons (e : GEvent) (t : List GEvent) :
    deltaSum (e :: t) = gdelta e + deltaSum t := by
  simp [deltaSum]

/-- A balanced sequence has net depth change 0. -/
theorem balanced_deltaSum {evs : List GEvent} (h : BalancedGroups evs) :
    deltaSum evs = 0 := by
  induction h with
  | nil => rfl
  | append hl hr ihl ihr => rw [deltaSum_append, ihl, ihr]; rfl
  | wrap p hm ihm =>
    rw [deltaSum_append, deltaSum_cons, ihm]
    simp [gdelta, deltaSum]

/-- Every prefix of a balanced sequence has non-negative net depth change. -/
theorem balanced_prefix_nonneg {evs : List GEvent} (h : BalancedGroups evs) :
    ∀ pre suf : List GEvent, evs = pre ++ suf → 0 ≤ deltaSum pre := by
  induction h with
  | nil =>
    intro pre suf heq
    obtain ⟨h1, -⟩ := List.append_eq_nil.mp heq.symm
    subst h1
    simp [deltaSum]
  | @append l r hl hr ihl ihr =>
    intro pre suf heq
    rcases List.append_eq_append_iff.mp heq.symm with ⟨a, ha1, ha2⟩ | ⟨c, hc1, hc2⟩
    · exact ihl pre a ha1
    · subst hc1
      rw [deltaSum_append]
      have h0 := balanced_deltaSum hl
      have h1 := ihr c suf hc2
      omega
  | @wrap m p hm ihm =>
    intro pre suf heq
    cases pre with
    | nil => simp [deltaSum]
    | cons x pre2 =>
      rw [List.cons_append, List.cons_append] at heq
      injection heq with hx hrest
      subst hx
      have hdx : gdelta (GEvent.beginGroup p) = 1 := rfl
      rcases List.append_eq_append_iff.mp hrest with ⟨a, ha1, ha2⟩ | ⟨c, hc1, hc2⟩
      · subst ha1
        cases a with
        | nil =>
          rw [deltaSum_cons, deltaSum_append]
          have h0 := balanced_deltaSum hm
          have h1 : deltaSum [] = 0 := rfl
          omega
        | cons y a2 =>
          rw [List.cons_append] at ha2
          injection ha2 with hy ha3
          obtain ⟨h1, h2⟩ := List.append_eq_nil.mp ha3.symm
          subst h1
          subst hy
          rw [deltaSum_cons, deltaSum_append]
          have h0 := balanced_deltaSum hm
          have h3 : deltaSum [GEvent.endGroup p] = -1 := rfl
          omega
      · have h1 := ihm pre2 c hc1
        rw [deltaSum_cons]
        omega

/-- A table depth step adds `gdelta`. -/
theorem tableDepthStep_delta (d : Int) (e : GEvent) :
    tableDepthStep d e = d + gdelta e := by
  cases e <;> rfl

/-- A div depth step adds `gdelta`. -/
theorem divDepthStep_delta (d : Int) (e : GEvent) :
    divDepthStep d e = d + gdelta e := by
  cases e <;> rfl

/-- Running a pointwise-delta step accumulates `deltaSum`. -/
theorem runDepth_delta (step : Int → GEvent → Int)
    (hstep : ∀ d e, step d e = d + gdelta e) :
    ∀ (evs : List GEvent) (d : Int), runDepth step d evs = d + deltaSum evs := by
  intro evs
  induction evs with
  | nil => intro d; simp [runDepth, deltaSum]
  | cons e t ih =>
    intro d
    show runDepth step (step d e) t = d + deltaSum (e :: t)
    rw [ih, hstep, deltaSum_cons]
    omega

/-- C7 (confirmed): for both renderer variants, the depth counter is 0 after
`start()`, each `beginGroup` adds exactly 1 and each `endGroup` subtracts
exactly 1, and along every properly balanced and nested event sequence
following `start()` the depth stays non-negative at every prefix and is 0 at
the end (when `end()` is called). -/
theorem c7_depth_invariant (evs : List GEvent) (h : BalancedGroups evs) :
    table.start.1 = 0 ∧ div.start.1 = 0
  ∧ (∀ (d : Int) (p : List String),
      (table.beginGroup d p).1 = d + 1 ∧ (div.beginGroup d p).1 = d + 1
    ∧ (table.endGroup d p).1 = d - 1 ∧ (div.endGroup d p).1 = d - 1)
  ∧ (∀ pre suf : List GEvent, evs = pre ++ suf →
      0 ≤ runDepth tableDepthStep table.start.1 pre
    ∧ 0 ≤ runDepth divDepthStep div.start.1 pre)
  ∧ runDepth tableDepthStep table.start.1 evs = 0
  ∧ runDepth divDepthStep div.start.1 evs = 0 := by
  have htab := runDepth_delta tableDepthStep tableDepthStep_delta
  have hdiv := runDepth_delta divDepthStep divDepthStep_delta
  have hz : deltaSum evs = 0 := balanced_deltaSum h
  refine ⟨rfl, rfl, fun d p => ⟨rfl, rfl, rfl, rfl⟩, fun pre suf hps => ?_, ?_, ?_⟩
  · have hp := balanced_prefix_nonneg h pre suf hps
    rw [htab, hdiv]
    have h0t : table.start.1 = 0 := rfl
    have h0d : div.start.1 = 0 := rfl
    rw [h0t, h0d]
    omega
  · rw [htab]
    have h0t : table.start.1 = 0 := rfl
    rw [h0t, hz]
    rfl
  · rw [hdiv]
    have h0d : div.start.1 = 0 := rfl
    rw [h0d, hz]
    rfl

/-- C7 witness: a concrete nested sequence of two groups keeps depth
non-negative and ends at 0 in both variants. -/
theorem c7_witness :
    runDepth tableDepthStep table.start.1
        [GEvent.beginGroup ["a"], GEvent.beginGroup ["a", "b"],
          GEvent.endGroup ["a", "b"], GEvent.endGroup ["a"]] = 0
  ∧ runDepth divDepthStep div.start.1
        [GEvent.beginGroup ["a"], GEvent.beginGroup ["a", "b"],
          GEvent.endGroup ["a", "b"], GEvent.endGroup ["a"]] = 0 := by
  have h2 : BalancedGroups [GEvent.beginGroup ["a", "b"], GEvent.endGroup ["a", "b"]] := by
    have hw := BalancedGroups.wrap ["a", "b"] BalancedGroups.nil
    simpa using hw
  have hb : BalancedGroups [GEvent.beginGroup ["a"], GEvent.beginGroup ["a", "b"],
      GEvent.endGroup ["a", "b"], GEvent.endGroup ["a"]] := by
    have hw := BalancedGroups.wrap ["a"] h2
    simpa using hw
  exact ⟨(c7_depth_invariant _ hb).2.2.2.2.1, (c7_depth_invariant _ hb).2.2.2.2.2⟩
